import Mathlib

/-!
Verification development for the subtitle-segmentation core of the
Video2TextGUI repository (`src/srt_utils.py`).  The three source functions
`format_time`, `generate_smart_srt` and `is_mainly_cjk` are embedded
shallowly below: Python strings become `String` / `List Char`, Python
integers become `Int` (or `Nat` for counters and lengths), dynamic access
that can raise becomes `Except Unit`, and the top-level exception handler
of `generate_smart_srt` becomes a `match` that maps `Except.error` to the
empty string.
-/

namespace SrtUtils

/-- Whitespace test used to embed Python's `str.isspace` / `str.strip` for
one character.  This covers the ASCII whitespace characters; the full
Python predicate additionally accepts some exotic Unicode space
separators, none of which occurs in any input considered here. -/
def pyIsSpace (c : Char) : Bool :=
  c = ' ' || c = '\t' || c = '\n' || c = '\r' || c = '\x0b' || c = '\x0c'

/-- Left trim of a character list: embeds the leading-edge half of Python's
`str.strip()`. -/
def trimL (l : List Char) : List Char :=
  l.dropWhile pyIsSpace

/-- Right trim of a character list: embeds the trailing-edge half of
Python's `str.strip()`. -/
def trimR (l : List Char) : List Char :=
  (l.reverse.dropWhile pyIsSpace).reverse

/-- Embeds Python's `str.strip()` on the character list of a string. -/
def pyStrip (l : List Char) : List Char :=
  trimR (trimL l)

/-- The hard-break character set of `generate_smart_srt`
(`src/srt_utils.py` line 57): `set("。？！；：?!;:\n")`. -/
def hard_break_chars : List Char :=
  ['。', '？', '！', '；', '：', '?', '!', ';', ':', '\n']

/-- The soft-break character set of `generate_smart_srt`
(`src/srt_utils.py` line 59): `set(".，、, ")`. -/
def soft_break_chars : List Char :=
  ['.', '，', '、', ',', ' ']

/-- The `is_punctuation` test of the loop body (`src/srt_utils.py` line
72): hard break, soft break, or whitespace. -/
def is_punct_char (c : Char) : Bool :=
  decide (c ∈ hard_break_chars) || decide (c ∈ soft_break_chars) || pyIsSpace c

/-- Zero padding of an integer to a given width: embeds the Python format
specifier `f"{n:0wd}"` (for a negative number the sign is written first
and the digits are padded to width minus one). -/
def pyZeroPad (w : Nat) (n : Int) : String :=
  if n < 0 then
    let s := toString n.natAbs
    "-" ++ String.mk (List.replicate (w - 1 - s.length) '0') ++ s
  else
    let s := toString n.natAbs
    String.mk (List.replicate (w - s.length) '0') ++ s

/-- Embeds `format_time` (`src/srt_utils.py` lines 4-22).  The argument
models the dynamically typed Python parameter: `some n` is an integer
number of milliseconds, `none` is a non-numeric value on which the
arithmetic raises and the handler returns the fallback literal.  Integer
division and remainder use the floor-division semantics of Python's
`//` and `%`, i.e. `Int.fdiv` and `Int.fmod`. -/
def format_time (milliseconds : Option Int) : String :=
  match milliseconds with
  | none => "00:00:00,000"
  | some m =>
    let seconds := Int.fdiv m 1000
    let ms := Int.fmod m 1000
    let hours := Int.fdiv seconds 3600
    let minutes := Int.fdiv (Int.fmod seconds 3600) 60
    let secs := Int.fmod seconds 60
    pyZeroPad 2 hours ++ ":" ++ pyZeroPad 2 minutes ++ ":" ++ pyZeroPad 2 secs
      ++ "," ++ pyZeroPad 3 ms

/-- One emitted subtitle cue: index, start time, end time (`stop`), and the
stripped cue text, exactly the data written by the flush block of
`generate_smart_srt` (`src/srt_utils.py` lines 107-109). -/
structure Cue where
  idx : Nat
  start : Int
  stop : Int
  text : List Char
deriving DecidableEq, Repr

/-- Rendering of one cue: the three `srt_content +=` statements of the
flush block (`src/srt_utils.py` lines 107-109 and 119-121). -/
def renderCue (c : Cue) : String :=
  toString c.idx ++ "\n"
    ++ format_time (some c.start) ++ " --> " ++ format_time (some c.stop) ++ "\n"
    ++ String.mk c.text ++ "\n\n"

/-- The mutable locals of the `generate_smart_srt` loop
(`src/srt_utils.py` lines 61-68), plus `cues`, the same emissions recorded
as structured data (every flush appends `renderCue cue` to `srt_content`
and `cue` to `cues`). -/
structure LoopState where
  srt_content : String
  sentence_idx : Nat
  ts_index : Nat
  curr_text : List Char
  curr_start : Int
  curr_end : Int
  cues : List Cue
deriving DecidableEq, Repr

/-- Initial loop state (`src/srt_utils.py` lines 61-68): empty output,
index 1, timestamp pointer 0, empty buffer, `curr_start = -1` sentinel,
`curr_end = 0`. -/
def initState : LoopState :=
  { srt_content := ""
    sentence_idx := 1
    ts_index := 0
    curr_text := []
    curr_start := -1
    curr_end := 0
    cues := [] }

/-- The flush decision of the loop (`src/srt_utils.py` lines 88-99):
`buf` is the clause buffer after the current character was appended. -/
def should_flush (min_length : Nat) (buf : List Char) (c : Char) : Bool :=
  if c ∈ hard_break_chars then true
  else if c ∈ soft_break_chars then decide (min_length ≤ buf.length)
  else false

/-- Phase A of the loop body (`src/srt_utils.py` lines 74-82): a content
character consumes the next time interval if one remains, setting the
clause start on the first covered character and always updating the
clause end. -/
def updateTimes (ts_list : List (Int × Int)) (st : LoopState) : LoopState :=
  match ts_list[st.ts_index]? with
  | some (s, e) =>
    { st with
        curr_start := if st.curr_start = -1 then s else st.curr_start
        curr_end := e
        ts_index := st.ts_index + 1 }
  | none => st

/-- The flush block (`src/srt_utils.py` lines 102-114): clause-start
fallback to clause-end, emission of the rendered block, counter increment
and buffer reset. -/
def emitCue (st : LoopState) (buf : List Char) : LoopState :=
  let cs := if st.curr_start = -1 then st.curr_end else st.curr_start
  let cue : Cue := ⟨st.sentence_idx, cs, st.curr_end, pyStrip buf⟩
  { st with
      srt_content := st.srt_content ++ renderCue cue
      sentence_idx := st.sentence_idx + 1
      curr_text := []
      curr_start := -1
      cues := st.cues ++ [cue] }

/-- Phases B-D of the loop body (`src/srt_utils.py` lines 84-114): append
the character to the clause buffer, then flush when the flush decision
holds and the stripped buffer is non-empty (the Python truthiness test
`if should_flush and curr_text.strip()`). -/
def stepFlush (min_length : Nat) (st1 : LoopState) (c : Char) : LoopState :=
  if should_flush min_length (st1.curr_text ++ [c]) c
      && !(pyStrip (st1.curr_text ++ [c])).isEmpty then
    emitCue st1 (st1.curr_text ++ [c])
  else
    { st1 with curr_text := st1.curr_text ++ [c] }

/-- One iteration of the `for char in text` loop of `generate_smart_srt`
(`src/srt_utils.py` lines 70-114): phase A (interval consumption for
content characters) followed by phases B-D. -/
def stepChar (min_length : Nat) (ts_list : List (Int × Int))
    (st : LoopState) (c : Char) : LoopState :=
  stepFlush min_length (if is_punct_char c then st else updateTimes ts_list st) c

/-- The whole character loop as a left fold. -/
def runChars (min_length : Nat) (ts_list : List (Int × Int))
    (st : LoopState) (cs : List Char) : LoopState :=
  cs.foldl (stepChar min_length ts_list) st

/-- The residual-text block after the loop (`src/srt_utils.py` lines
116-121): a trailing buffer with non-empty stripped content is emitted as
a final cue with the same clause-start fallback. -/
def finishState (st : LoopState) : LoopState :=
  if (pyStrip st.curr_text).isEmpty then st
  else
    let cs := if st.curr_start = -1 then st.curr_end else st.curr_start
    let cue : Cue := ⟨st.sentence_idx, cs, st.curr_end, pyStrip st.curr_text⟩
    { st with
        srt_content := st.srt_content ++ renderCue cue
        cues := st.cues ++ [cue] }

/-- The full segmentation pass of `generate_smart_srt` on resolved text
and interval list. -/
def smart_segment (text : String) (ts_list : List (Int × Int))
    (min_length : Nat) : LoopState :=
  finishState (runChars min_length ts_list initState text.toList)

/-- The cues emitted by a segmentation pass. -/
def segment_cues (text : String) (ts_list : List (Int × Int))
    (min_length : Nat) : List Cue :=
  (smart_segment text ts_list min_length).cues

/-- The `srt_content` string returned by a segmentation pass. -/
def segment_srt (text : String) (ts_list : List (Int × Int))
    (min_length : Nat) : String :=
  (smart_segment text ts_list min_length).srt_content

/-- Concatenation of rendered cue blocks, in emission order. -/
def renderCues (l : List Cue) : String :=
  l.foldl (fun acc c => acc ++ renderCue c) ""

/-- The `timestamp` field of the result mapping.  `absent` is a missing
key (the `data.get('timestamp', [])` default), `ivals` a genuine list of
`(start, end)` pairs, and `malformed` models a value that is not such a
list (for example an integer), on which the interval access of the loop
(`len(ts_list)` / tuple unpacking, `src/srt_utils.py` lines 75-76) raises
as soon as a content character is processed. -/
inductive TsField where
  | absent : TsField
  | ivals : List (Int × Int) → TsField
  | malformed : TsField
deriving DecidableEq, Repr

/-- The result mapping consumed by `generate_smart_srt`
(`src/srt_utils.py` lines 35-48): optional `text`, `transcription` and
`srt` string fields and the `timestamp` field. -/
structure RDict where
  text : Option String
  transcription : Option String
  srt : Option String
  timestamp : TsField
deriving DecidableEq, Repr

/-- A result object: either a mapping or any non-mapping value (the
`isinstance(data, dict)` test, `src/srt_utils.py` line 35). -/
inductive PyData where
  | dict : RDict → PyData
  | nondict : PyData
deriving DecidableEq, Repr

/-- The `inference_result` argument: either a Python list (from which
element 0 is taken, raising `IndexError` when empty) or a single object
(`src/srt_utils.py` line 32). -/
inductive InfResult where
  | pylist : List PyData → InfResult
  | single : PyData → InfResult
deriving DecidableEq, Repr

/-- Does the text contain a character that is not punctuation and not
whitespace, i.e. one that reaches the interval access of the loop? -/
def hasContentChar (t : String) : Bool :=
  t.toList.any (fun c => !is_punct_char c)

/-- Runs the segmentation loop under a given `timestamp` field.  A
`malformed` field raises (`Except.error`) exactly when some content
character triggers the interval access; otherwise the loop never touches
the field and behaves as with an empty list. -/
def segment_with (ts : TsField) (t : String) (min_length : Nat) :
    Except Unit String :=
  match ts with
  | .ivals l => .ok (segment_srt t l min_length)
  | .absent => .ok (segment_srt t [] min_length)
  | .malformed =>
    if hasContentChar t then .error () else .ok (segment_srt t [] min_length)

/-- The body of `generate_smart_srt` after element extraction
(`src/srt_utils.py` lines 35-124): field resolution in source order
(`text`, then `transcription`, then the `srt` early return, else the
empty string), then the segmentation loop. -/
def generate_data (data : PyData) (min_length : Nat) : Except Unit String :=
  match data with
  | .nondict => .ok ""
  | .dict d =>
    match d.text with
    | some t => segment_with d.timestamp t min_length
    | none =>
      match d.transcription with
      | some t => segment_with d.timestamp t min_length
      | none =>
        match d.srt with
        | some s => .ok s
        | none => segment_with d.timestamp "" min_length

/-- The `try` body of `generate_smart_srt` (`src/srt_utils.py` lines
30-124): element extraction (an empty list raises `IndexError`) followed
by `generate_data`. -/
def generate_core (inference_result : InfResult) (min_length : Nat) :
    Except Unit String :=
  match inference_result with
  | .pylist [] => .error ()
  | .pylist (d :: _) => generate_data d min_length
  | .single d => generate_data d min_length

/-- Embeds `generate_smart_srt` (`src/srt_utils.py` lines 24-128): the
top-level `except` clause converts any raised exception into the empty
string. -/
def generate_smart_srt (inference_result : InfResult) (min_length : Nat) :
    String :=
  match generate_core inference_result min_length with
  | .ok s => s
  | .error _ => ""

/-- Membership in one of the four character ranges of the regular
expression of `is_mainly_cjk` (`src/srt_utils.py` line 143): CJK Unified
Ideographs, Hiragana, Katakana, Hangul Syllables. -/
def is_cjk_char (c : Char) : Bool :=
  (0x4e00 ≤ c.toNat && c.toNat ≤ 0x9fff)
    || (0x3040 ≤ c.toNat && c.toNat ≤ 0x309f)
    || (0x30a0 ≤ c.toNat && c.toNat ≤ 0x30ff)
    || (0xac00 ≤ c.toNat && c.toNat ≤ 0xd7af)

/-- Embeds `is_mainly_cjk` on a string input (`src/srt_utils.py` lines
130-152).  The Python comparison `len(matches) / len(sample) > 0.15` is a
correctly rounded double comparison; for sample sizes up to 500 it
decides exactly as the rational comparison `matches / sample > 3 / 20`
(any ratio other than exactly 3/20 differs from it by at least 1/10000,
far above double rounding error, and a ratio of exactly 3/20 compares
false on both sides), which is embedded as `3 * sample < 20 * matches`
over `Nat`. -/
def is_mainly_cjk (text : String) : Bool :=
  if text = "" then false
  else
    decide (0 < (text.toList.take 500).length ∧
      3 * (text.toList.take 500).length
        < 20 * ((text.toList.take 500).filter is_cjk_char).length)

/-- The dynamically typed argument of `is_mainly_cjk`: a string, `None`,
or an integer. -/
inductive PyText where
  | str : String → PyText
  | noneVal : PyText
  | intVal : Int → PyText
deriving DecidableEq, Repr

/-- Embeds `is_mainly_cjk` on a dynamically typed argument.  A falsy
value (`None`, `0`, the empty string) returns `false` through the
`if not text` guard (`src/srt_utils.py` line 135); a truthy non-string
such as a non-zero integer reaches `text[:500]` (line 146), which raises
`TypeError` — the function has no exception handler, so the error
propagates. -/
def is_mainly_cjk_py (t : PyText) : Except Unit Bool :=
  match t with
  | .str s => .ok (is_mainly_cjk s)
  | .noneVal => .ok false
  | .intVal n => if n = 0 then .ok false else .error ()

/-! ### Helper lemmas about stripping -/

theorem isEmpty_eq_false_iff (l : List Char) : l.isEmpty = false ↔ l ≠ [] := by
  cases l <;> simp

theorem pyStrip_nil : pyStrip [] = [] := rfl

theorem dropWhile_head_false {p : Char → Bool} {l : List Char} {x : Char}
    {xs : List Char} (h : List.dropWhile p l = x :: xs) : p x = false := by
  induction l with
  | nil => simp [List.dropWhile] at h
  | cons a t ih =>
    by_cases hpa : p a = true
    · rw [List.dropWhile_cons_of_pos hpa] at h
      exact ih h
    · rw [List.dropWhile_cons_of_neg hpa] at h
      injection h with h1 h2
      subst h1
      exact Bool.eq_false_iff.mpr hpa

theorem dropWhile_idem {p : Char → Bool} (l : List Char) :
    List.dropWhile p (List.dropWhile p l) = List.dropWhile p l := by
  rcases h : List.dropWhile p l with _ | ⟨x, xs⟩
  · simp
  · have hx := dropWhile_head_false h
    rw [List.dropWhile_cons_of_neg (by simp [hx])]

theorem trimL_append_last {p : Char → Bool} :
    ∀ (l : List Char) (x : Char),
      List.dropWhile p (l ++ [x]) = [] ∨
        ∃ m, List.dropWhile p (l ++ [x]) = m ++ [x] := by
  intro l
  induction l with
  | nil =>
    intro x
    by_cases h : p x = true
    · left; simp [List.dropWhile_cons_of_pos h]
    · right; exact ⟨[], by simp [List.dropWhile_cons_of_neg h]⟩
  | cons a t ih =>
    intro x
    by_cases h : p a = true
    · rw [List.cons_append, List.dropWhile_cons_of_pos h]
      exact ih x
    · right
      rw [List.cons_append, List.dropWhile_cons_of_neg h]
      exact ⟨a :: t, rfl⟩

theorem trimR_cons_head (x : Char) (xs : List Char) :
    trimR (x :: xs) = [] ∨ ∃ ys, trimR (x :: xs) = x :: ys := by
  unfold trimR
  rw [List.reverse_cons]
  rcases trimL_append_last (p := pyIsSpace) xs.reverse x with h | ⟨m, h⟩
  · left; rw [h]; rfl
  · right; exact ⟨m.reverse, by rw [h]; simp⟩

theorem trimL_cons_of_head_false {x : Char} (hx : pyIsSpace x = false)
    (ys : List Char) : trimL (x :: ys) = x :: ys := by
  unfold trimL
  rw [List.dropWhile_cons_of_neg (by simp [hx])]

theorem trimR_idem (l : List Char) : trimR (trimR l) = trimR l := by
  unfold trimR
  rw [List.reverse_reverse, dropWhile_idem]

theorem pyStrip_idem (l : List Char) : pyStrip (pyStrip l) = pyStrip l := by
  unfold pyStrip
  rcases h : trimL l with _ | ⟨x, xs⟩
  · simp [trimR, trimL, List.dropWhile]
  · have hx : pyIsSpace x = false := dropWhile_head_false (p := pyIsSpace) h
    rcases trimR_cons_head x xs with h2 | ⟨ys, h2⟩
    · rw [h2]; simp [trimR, trimL, List.dropWhile]
    · rw [h2, trimL_cons_of_head_false hx, ← h2, trimR_idem]

/-! ### Helper lemmas about the loop -/

theorem updateTimes_fields (ts : List (Int × Int)) (st : LoopState) :
    (updateTimes ts st).curr_text = st.curr_text ∧
    (updateTimes ts st).cues = st.cues ∧
    (updateTimes ts st).sentence_idx = st.sentence_idx ∧
    (updateTimes ts st).srt_content = st.srt_content := by
  unfold updateTimes
  cases ts[st.ts_index]? with
  | none => exact ⟨rfl, rfl, rfl, rfl⟩
  | some p => cases p with | mk s e => exact ⟨rfl, rfl, rfl, rfl⟩

theorem should_flush_punct {ml : Nat} {buf : List Char} {c : Char}
    (h : should_flush ml buf c = true) : is_punct_char c = true := by
  unfold should_flush at h
  unfold is_punct_char
  split at h
  · next hc => simp [hc]
  · split at h
    · next hc => simp [hc]
    · exact absurd h (by simp)

theorem flush_cond_iff (ml : Nat) (buf : List Char) (c : Char) :
    (should_flush ml buf c && !(pyStrip buf).isEmpty) = true ↔
      (should_flush ml buf c = true ∧ pyStrip buf ≠ []) := by
  rw [Bool.and_eq_true, Bool.not_eq_true', isEmpty_eq_false_iff]

theorem stepChar_of_flush {ml : Nat} {ts : List (Int × Int)} {st : LoopState}
    {c : Char} (hf : should_flush ml (st.curr_text ++ [c]) c = true)
    (hne : pyStrip (st.curr_text ++ [c]) ≠ []) :
    stepChar ml ts st c = emitCue st (st.curr_text ++ [c]) := by
  have hp := should_flush_punct hf
  unfold stepChar
  rw [if_pos hp]
  unfold stepFlush
  rw [if_pos ((flush_cond_iff ml (st.curr_text ++ [c]) c).mpr ⟨hf, hne⟩)]

theorem stepChar_fields_of_flush {ml : Nat} (ts : List (Int × Int))
    {st : LoopState} {c : Char}
    (hf : should_flush ml (st.curr_text ++ [c]) c = true)
    (hne : pyStrip (st.curr_text ++ [c]) ≠ []) :
    (stepChar ml ts st c).curr_text = [] ∧
    (stepChar ml ts st c).cues = st.cues ++
      [⟨st.sentence_idx,
        (if st.curr_start = -1 then st.curr_end else st.curr_start),
        st.curr_end, pyStrip (st.curr_text ++ [c])⟩] ∧
    (stepChar ml ts st c).sentence_idx = st.sentence_idx + 1 := by
  rw [stepChar_of_flush hf hne]
  exact ⟨rfl, rfl, rfl⟩

theorem stepChar_fields_of_noflush {ml : Nat} (ts : List (Int × Int))
    {st : LoopState} {c : Char}
    (h : ¬(should_flush ml (st.curr_text ++ [c]) c = true ∧
           pyStrip (st.curr_text ++ [c]) ≠ [])) :
    (stepChar ml ts st c).curr_text = st.curr_text ++ [c] ∧
    (stepChar ml ts st c).cues = st.cues ∧
    (stepChar ml ts st c).sentence_idx = st.sentence_idx := by
  unfold stepChar
  split
  · unfold stepFlush
    rw [if_neg (fun hc => h ((flush_cond_iff ml (st.curr_text ++ [c]) c).mp hc))]
    exact ⟨rfl, rfl, rfl⟩
  · obtain ⟨h1, h2, h3, _⟩ := updateTimes_fields ts st
    unfold stepFlush
    rw [h1, if_neg (fun hc => h ((flush_cond_iff ml (st.curr_text ++ [c]) c).mp hc))]
    exact ⟨rfl, h2, h3⟩

theorem stepChar_cases (ml : Nat) (ts : List (Int × Int)) (st : LoopState)
    (c : Char) :
    ((stepChar ml ts st c).curr_text = st.curr_text ++ [c] ∧
     (stepChar ml ts st c).cues = st.cues) ∨
    (pyStrip (st.curr_text ++ [c]) ≠ [] ∧
     (stepChar ml ts st c).curr_text = [] ∧
     (stepChar ml ts st c).cues.map Cue.text
       = st.cues.map Cue.text ++ [pyStrip (st.curr_text ++ [c])]) := by
  by_cases h : should_flush ml (st.curr_text ++ [c]) c = true ∧
      pyStrip (st.curr_text ++ [c]) ≠ []
  · right
    obtain ⟨hf, hne⟩ := h
    obtain ⟨h1, h2, _⟩ := stepChar_fields_of_flush ts hf hne
    exact ⟨hne, h1, by rw [h2]; simp⟩
  · left
    obtain ⟨h1, h2, _⟩ := stepChar_fields_of_noflush ts h
    exact ⟨h1, h2⟩

theorem runChars_nil (ml : Nat) (ts : List (Int × Int)) (st : LoopState) :
    runChars ml ts st [] = st := rfl

theorem runChars_cons (ml : Nat) (ts : List (Int × Int)) (st : LoopState)
    (c : Char) (cs : List Char) :
    runChars ml ts st (c :: cs) = runChars ml ts (stepChar ml ts st c) cs := rfl

theorem finishState_of_empty (st : LoopState) (h : pyStrip st.curr_text = []) :
    finishState st = st := by
  unfold finishState
  rw [if_pos (by simp [h])]

theorem finishState_of_ne (st : LoopState) (h : pyStrip st.curr_text ≠ []) :
    (finishState st).cues = st.cues ++
      [⟨st.sentence_idx,
        (if st.curr_start = -1 then st.curr_end else st.curr_start),
        st.curr_end, pyStrip st.curr_text⟩] ∧
    (finishState st).srt_content = st.srt_content ++
      renderCue ⟨st.sentence_idx,
        (if st.curr_start = -1 then st.curr_end else st.curr_start),
        st.curr_end, pyStrip st.curr_text⟩ := by
  unfold finishState
  rw [if_neg (by simp [h])]
  exact ⟨rfl, rfl⟩

/-- Invariant of the character loop: the characters consumed so far split
into the clause pieces already flushed plus the still-open buffer, the
flushed cues carry exactly the stripped pieces, and every flushed piece
has non-empty stripped content. -/
theorem runChars_pieces (ml : Nat) (ts : List (Int × Int)) :
    ∀ (cs : List Char) (st : LoopState),
      ∃ (pieces : List (List Char)) (tl : List Char),
        st.curr_text ++ cs = pieces.flatten ++ tl ∧
        (runChars ml ts st cs).curr_text = tl ∧
        (runChars ml ts st cs).cues.map Cue.text
          = st.cues.map Cue.text ++ pieces.map pyStrip ∧
        ∀ p ∈ pieces, pyStrip p ≠ [] := by
  intro cs
  induction cs with
  | nil =>
    intro st
    exact ⟨[], st.curr_text, by simp, rfl, by simp [runChars_nil], by simp⟩
  | cons c rest ih =>
    intro st
    rw [runChars_cons]
    rcases stepChar_cases ml ts st c with ⟨h1, h2⟩ | ⟨hne, h1, h2⟩
    · obtain ⟨pieces, tl, e1, e2, e3, e4⟩ := ih (stepChar ml ts st c)
      refine ⟨pieces, tl, ?_, e2, ?_, e4⟩
      · rw [← e1, h1]; simp
      · rw [e3, h2]
    · obtain ⟨pieces, tl, e1, e2, e3, e4⟩ := ih (stepChar ml ts st c)
      refine ⟨(st.curr_text ++ [c]) :: pieces, tl, ?_, e2, ?_, ?_⟩
      · have hrest : rest = pieces.flatten ++ tl := by
          rw [h1] at e1; simpa using e1
        rw [List.flatten_cons, hrest]
        simp
      · rw [e3, h2]; simp
      · intro p hp
        rcases List.mem_cons.mp hp with hp | hp
        · exact hp ▸ hne
        · exact e4 p hp

/-- The full-pass form of the loop invariant: the input text splits into
clause pieces whose stripped forms are exactly the emitted cue texts,
followed by a residue whose stripped form is empty. -/
theorem segment_pieces (text : String) (ts : List (Int × Int)) (ml : Nat) :
    ∃ (pieces : List (List Char)) (tl : List Char),
      text.toList = pieces.flatten ++ tl ∧
      pyStrip tl = [] ∧
      (segment_cues text ts ml).map Cue.text = pieces.map pyStrip ∧
      ∀ p ∈ pieces, pyStrip p ≠ [] := by
  obtain ⟨pieces, tl, e1, e2, e3, e4⟩ := runChars_pieces ml ts text.toList initState
  by_cases h : pyStrip tl = []
  · refine ⟨pieces, tl, by simpa [initState] using e1, h, ?_, e4⟩
    unfold segment_cues smart_segment
    rw [finishState_of_empty _ (by rw [e2]; exact h)]
    simpa [initState] using e3
  · refine ⟨pieces ++ [tl], [], ?_, pyStrip_nil, ?_, ?_⟩
    · rw [List.flatten_append]
      simpa [initState] using e1
    · unfold segment_cues smart_segment
      obtain ⟨hc, _⟩ := finishState_of_ne (runChars ml ts initState text.toList)
        (by rw [e2]; exact h)
      rw [hc]
      simp only [List.map_append, List.map_cons, List.map_nil]
      rw [e2]
      simpa [initState] using e3
    · intro p hp
      rcases List.mem_append.mp hp with hp | hp
      · exact e4 p hp
      · exact (List.mem_singleton.mp hp) ▸ h

/-! ### The output string is exactly the concatenation of rendered cues -/

theorem renderCues_append_one (l : List Cue) (c : Cue) :
    renderCues (l ++ [c]) = renderCues l ++ renderCue c := by
  unfold renderCues
  rw [List.foldl_append]
  rfl

theorem stepFlush_render {ml : Nat} {st1 : LoopState} {c : Char}
    (h : st1.srt_content = renderCues st1.cues) :
    (stepFlush ml st1 c).srt_content = renderCues (stepFlush ml st1 c).cues := by
  unfold stepFlush
  split
  · simp only [emitCue]
    rw [renderCues_append_one, h]
  · exact h

theorem stepChar_render {ml : Nat} {ts : List (Int × Int)} {st : LoopState}
    {c : Char} (h : st.srt_content = renderCues st.cues) :
    (stepChar ml ts st c).srt_content = renderCues (stepChar ml ts st c).cues := by
  unfold stepChar
  split
  · exact stepFlush_render h
  · obtain ⟨_, h2, _, h4⟩ := updateTimes_fields ts st
    exact stepFlush_render (by rw [h2, h4, h])

theorem runChars_render (ml : Nat) (ts : List (Int × Int)) :
    ∀ (cs : List Char) (st : LoopState),
      st.srt_content = renderCues st.cues →
      (runChars ml ts st cs).srt_content
        = renderCues (runChars ml ts st cs).cues := by
  intro cs
  induction cs with
  | nil => intro st h; exact h
  | cons c rest ih =>
    intro st h
    rw [runChars_cons]
    exact ih _ (stepChar_render h)

theorem segment_srt_eq_renderCues (text : String) (ts : List (Int × Int))
    (ml : Nat) :
    segment_srt text ts ml = renderCues (segment_cues text ts ml) := by
  unfold segment_srt segment_cues smart_segment
  have h := runChars_render ml ts text.toList initState rfl
  by_cases hs : pyStrip (runChars ml ts initState text.toList).curr_text = []
  · rw [finishState_of_empty _ hs]
    exact h
  · obtain ⟨hc, hr⟩ := finishState_of_ne _ hs
    rw [hr, hc, renderCues_append_one, h]

/-! ### Claim theorems -/

/-- C1: No content loss.  For every input text, interval list and
`min_length`, the input text splits into clause pieces followed by a
residue whose stripped form is empty, such that the texts of the cues
emitted by the segmentation pass are, in order, exactly the stripped
pieces, each with non-empty stripped content — no character is silently
dropped except leading/trailing whitespace trimmed per clause, and
buffered trailing content is flushed as a final cue (otherwise a
non-whitespace residue would remain).  Moreover the string returned by
`generate_smart_srt` on such a transcript is exactly the concatenation of
the rendered emitted cues. -/
theorem no_content_loss (text : String) (ts : List (Int × Int)) (ml : Nat) :
    (∃ (pieces : List (List Char)) (tl : List Char),
      text.toList = pieces.flatten ++ tl ∧
      pyStrip tl = [] ∧
      (segment_cues text ts ml).map Cue.text = pieces.map pyStrip ∧
      ∀ p ∈ pieces, pyStrip p ≠ []) ∧
    ∀ (tr srt : Option String),
      generate_smart_srt
          (InfResult.single (PyData.dict ⟨some text, tr, srt, TsField.ivals ts⟩)) ml
        = renderCues (segment_cues text ts ml) := by
  refine ⟨segment_pieces text ts ml, ?_⟩
  intro tr srt
  exact segment_srt_eq_renderCues text ts ml

/-- Witness instantiating `no_content_loss` at a concrete input. -/
theorem no_content_loss_check :
    (∃ (pieces : List (List Char)) (tl : List Char),
      ("a b。 " : String).toList = pieces.flatten ++ tl ∧
      pyStrip tl = [] ∧
      (segment_cues "a b。 " [(0, 1), (2, 3)] 1).map Cue.text = pieces.map pyStrip ∧
      ∀ p ∈ pieces, pyStrip p ≠ []) ∧
    ∀ (tr srt : Option String),
      generate_smart_srt
          (InfResult.single (PyData.dict ⟨some "a b。 ", tr, srt, TsField.ivals [(0, 1), (2, 3)]⟩)) 1
        = renderCues (segment_cues "a b。 " [(0, 1), (2, 3)] 1) :=
  no_content_loss "a b。 " [(0, 1), (2, 3)] 1

/-- C2: Hard-break forcing.  A hard-break character always terminates the
current clause regardless of `min_length` (whenever the stripped buffer
is non-empty, a cue is emitted and the buffer resets), and the example
text `你好。再见！` with `min_length = 100` and four intervals yields
exactly two cues. -/
theorem hard_break_forcing :
    (∀ (ml : Nat) (ts : List (Int × Int)) (st : LoopState) (c : Char),
        c ∈ hard_break_chars → pyStrip (st.curr_text ++ [c]) ≠ [] →
        (stepChar ml ts st c).curr_text = [] ∧
        (stepChar ml ts st c).cues.length = st.cues.length + 1) ∧
    (segment_cues "你好。再见！" [(0, 100), (100, 200), (200, 300), (300, 400)] 100).length
      = 2 ∧
    generate_smart_srt
        (InfResult.single (PyData.dict ⟨some "你好。再见！", none, none,
          TsField.ivals [(0, 100), (100, 200), (200, 300), (300, 400)]⟩)) 100
      = "1\n00:00:00,000 --> 00:00:00,200\n你好。\n\n2\n00:00:00,200 --> 00:00:00,400\n再见！\n\n" := by
  refine ⟨?_, by decide, by decide⟩
  intro ml ts st c hc hne
  have hf : should_flush ml (st.curr_text ++ [c]) c = true := by
    unfold should_flush
    rw [if_pos hc]
  obtain ⟨h1, h2, _⟩ := stepChar_fields_of_flush ts hf hne
  exact ⟨h1, by rw [h2]; simp⟩

/-- Witness instantiating `hard_break_forcing` at a concrete state. -/
theorem hard_break_forcing_check :
    (stepChar 100 [] { initState with curr_text := ['你'] } '。').curr_text = [] ∧
    (stepChar 100 [] { initState with curr_text := ['你'] } '。').cues.length
      = ({ initState with curr_text := ['你'] } : LoopState).cues.length + 1 :=
  hard_break_forcing.1 100 [] { initState with curr_text := ['你'] } '。'
    (by decide) (by decide)

/-- C3: Soft-break threshold gating.  For a soft-break character the flush
decision holds exactly when the clause buffer (including the just-appended
punctuation) has reached `min_length`; the example `ab,cd,ef,gh` with
per-letter 100 ms intervals gives cues `ab,cd,` and `ef,gh` at
`min_length = 5` and a single end-of-text cue at `min_length = 100`. -/
theorem soft_break_threshold_gating :
    (∀ (ml : Nat) (buf : List Char) (c : Char), c ∈ soft_break_chars →
        (should_flush ml buf c = true ↔ ml ≤ buf.length)) ∧
    (segment_cues "ab,cd,ef,gh"
        [(0, 100), (100, 200), (200, 300), (300, 400), (400, 500), (500, 600),
          (600, 700), (700, 800)] 5).map Cue.text
      = ["ab,cd,".toList, "ef,gh".toList] ∧
    (segment_cues "ab,cd,ef,gh"
        [(0, 100), (100, 200), (200, 300), (300, 400), (400, 500), (500, 600),
          (600, 700), (700, 800)] 100).map Cue.text
      = ["ab,cd,ef,gh".toList] := by
  refine ⟨?_, by decide, by decide⟩
  intro ml buf c hc
  have hnh : c ∉ hard_break_chars := by
    fin_cases hc <;> decide
  unfold should_flush
  rw [if_neg hnh, if_pos hc]
  simp

/-- Witness instantiating `soft_break_threshold_gating` at a concrete
buffer and character. -/
theorem soft_break_threshold_gating_check :
    should_flush 3 ['a', 'b', ','] ',' = true ↔ 3 ≤ (['a', 'b', ','] : List Char).length :=
  soft_break_threshold_gating.1 3 ['a', 'b', ','] ',' (by decide)

/-- C4 counterexample: a mapping that contains a pre-rendered `srt` field
together with a `text` field is NOT passed through — the `text` field
wins and the function segments it instead of returning the `srt` value. -/
theorem pass_through_counterexample :
    generate_smart_srt
        (InfResult.single (PyData.dict ⟨some "a。", none, some "X", TsField.absent⟩)) 10
      ≠ "X" := by decide

/-- C4 (amended): pass-through holds for a mapping that contains the
pre-rendered `srt` field and contains neither a `text` nor a
`transcription` field; then the `srt` value is returned unchanged for
every `min_length`, whether the mapping arrives bare or as the head of a
list. -/
theorem pass_through_only_srt (d : RDict) (ml : Nat) (s : String)
    (h1 : d.text = none) (h2 : d.transcription = none) (h3 : d.srt = some s) :
    generate_smart_srt (InfResult.single (PyData.dict d)) ml = s ∧
    ∀ rest : List PyData,
      generate_smart_srt (InfResult.pylist (PyData.dict d :: rest)) ml = s := by
  constructor
  · simp [generate_smart_srt, generate_core, generate_data, h1, h2, h3]
  · intro rest
    simp [generate_smart_srt, generate_core, generate_data, h1, h2, h3]

/-- Witness instantiating `pass_through_only_srt` at a concrete mapping. -/
theorem pass_through_only_srt_check :
    generate_smart_srt
        (InfResult.single (PyData.dict ⟨none, none, some "X", TsField.absent⟩)) 10 = "X" :=
  (pass_through_only_srt ⟨none, none, some "X", TsField.absent⟩ 10 "X" rfl rfl rfl).1

/-- C5: Failure containment.  The embedded `generate_smart_srt` maps every
raised exception of its body to the empty string (the top-level handler),
returns the empty string for a non-mapping result, for an empty result
list, for an empty text field, and for a mapping missing all recognized
text fields. -/
theorem failure_containment :
    (∀ (r : InfResult) (ml : Nat) (e : Unit),
        generate_core r ml = Except.error e → generate_smart_srt r ml = "") ∧
    (∀ ml : Nat, generate_smart_srt (InfResult.single PyData.nondict) ml = "") ∧
    (∀ ml : Nat, generate_smart_srt (InfResult.pylist []) ml = "") ∧
    (∀ (d : RDict) (ml : Nat), d.text = some "" →
        generate_smart_srt (InfResult.single (PyData.dict d)) ml = "") ∧
    (∀ (d : RDict) (ml : Nat), d.text = none → d.transcription = none →
        d.srt = none →
        generate_smart_srt (InfResult.single (PyData.dict d)) ml = "") := by
  refine ⟨?_, fun ml => rfl, fun ml => rfl, ?_, ?_⟩
  · intro r ml e h
    unfold generate_smart_srt
    rw [h]
  · intro d ml h
    simp only [generate_smart_srt, generate_core, generate_data, h]
    cases d.timestamp with
    | absent => rfl
    | ivals l => rfl
    | malformed => rfl
  · intro d ml h1 h2 h3
    simp only [generate_smart_srt, generate_core, generate_data, h1, h2, h3]
    cases d.timestamp with
    | absent => rfl
    | ivals l => rfl
    | malformed => rfl

/-- Witness instantiating `failure_containment` at concrete inputs. -/
theorem failure_containment_check :
    generate_smart_srt (InfResult.pylist []) 7 = "" ∧
    generate_smart_srt
        (InfResult.single (PyData.dict ⟨some "", none, none, TsField.absent⟩)) 10 = "" :=
  ⟨failure_containment.1 (InfResult.pylist []) 7 () rfl,
   failure_containment.2.2.2.1 ⟨some "", none, none, TsField.absent⟩ 10 rfl⟩

/-- C6 counterexample: a malformed `timestamp` field is not treated as an
empty interval list — with text `ab` and a malformed field the function
returns the empty string (the interval access raises and the top-level
handler fires), while with an actual empty interval list it returns a
cue. -/
theorem malformed_timestamp_counterexample :
    generate_smart_srt
        (InfResult.single (PyData.dict ⟨some "ab", none, none, TsField.malformed⟩)) 10 = "" ∧
    generate_smart_srt
        (InfResult.single (PyData.dict ⟨some "ab", none, none, TsField.ivals []⟩)) 10
      = "1\n00:00:00,000 --> 00:00:00,000\nab\n\n" :=
  ⟨rfl, rfl⟩

/-- C6 (amended): an ABSENT timestamp field is treated as an empty
interval list; a well-formed interval list never makes the body raise,
however short (the segmenter proceeds with the intervals that remain);
trailing content flushed after the loop keeps the last known end time;
and a clause whose start was never set falls back to its clause end as
start, both at end-of-text and at a hard break.  (A malformed field
instead returns the empty string via the top-level handler whenever the
text has a content character.) -/
theorem interval_shortfall_tolerance :
    (∀ (d : RDict) (ml : Nat),
        generate_smart_srt
            (InfResult.single (PyData.dict { d with timestamp := TsField.absent })) ml
          = generate_smart_srt
              (InfResult.single (PyData.dict { d with timestamp := TsField.ivals [] })) ml) ∧
    (∀ (d : RDict) (t : String) (l : List (Int × Int)) (ml : Nat),
        d.text = some t → d.timestamp = TsField.ivals l →
        generate_core (InfResult.single (PyData.dict d)) ml
          = Except.ok (segment_srt t l ml)) ∧
    (∀ st : LoopState, pyStrip st.curr_text ≠ [] → st.curr_start = -1 →
        (finishState st).cues = st.cues ++
          [⟨st.sentence_idx, st.curr_end, st.curr_end, pyStrip st.curr_text⟩]) ∧
    (∀ (ml : Nat) (ts : List (Int × Int)) (st : LoopState) (c : Char),
        c ∈ hard_break_chars → st.curr_start = -1 →
        pyStrip (st.curr_text ++ [c]) ≠ [] →
        (stepChar ml ts st c).cues = st.cues ++
          [⟨st.sentence_idx, st.curr_end, st.curr_end, pyStrip (st.curr_text ++ [c])⟩]) := by
  refine ⟨?_, ?_, ?_, ?_⟩
  · intro d ml
    obtain ⟨ot, otr, os, ots⟩ := d
    cases ot <;> cases otr <;> cases os <;> rfl
  · intro d t l ml h1 h2
    simp [generate_core, generate_data, h1, segment_with, h2]
  · intro st h h2
    rw [(finishState_of_ne st h).1, if_pos h2]
  · intro ml ts st c hc h2 hne
    have hf : should_flush ml (st.curr_text ++ [c]) c = true := by
      unfold should_flush
      rw [if_pos hc]
    rw [(stepChar_fields_of_flush ts hf hne).2.1, if_pos h2]

/-- Witness instantiating `interval_shortfall_tolerance`: two content
characters but a single interval — the body completes without raising. -/
theorem interval_shortfall_tolerance_check :
    generate_core
        (InfResult.single (PyData.dict ⟨some "ab", none, none, TsField.ivals [(0, 5)]⟩)) 10
      = Except.ok (segment_srt "ab" [(0, 5)] 10) :=
  interval_shortfall_tolerance.2.1 ⟨some "ab", none, none, TsField.ivals [(0, 5)]⟩
    "ab" [(0, 5)] 10 rfl rfl

/-- C7 counterexample: a negative input does NOT produce the fallback
literal — Python's floor division and sign-aware zero padding render
`-1` as `-1:59:59,999`, and no exception is raised. -/
theorem format_time_negative_counterexample :
    format_time (some (-1)) ≠ "00:00:00,000" := by decide

/-- C7 (amended): the three documented timecode examples hold, a
non-numeric input returns the fallback literal, but a negative input is
rendered with floor-division semantics (for example `-1` gives
`-1:59:59,999`) rather than the fallback. -/
theorem format_time_values :
    format_time (some 0) = "00:00:00,000" ∧
    format_time (some 61000) = "00:01:01,000" ∧
    format_time (some 3600000) = "01:00:00,000" ∧
    format_time none = "00:00:00,000" ∧
    format_time (some (-1)) = "-1:59:59,999" :=
  ⟨rfl, rfl, rfl, rfl, rfl⟩

/-- C8: CJK profiling.  `is_mainly_cjk` returns false on the empty string;
it returns true exactly when the text is non-empty and, over the sample
of the first 500 characters, the CJK fraction strictly exceeds 0.15
(stated as the exact rational comparison `3 * sample < 20 * hits`);
characters beyond index 500 never affect the result; a 20% CJK sample
returns true and a 10% CJK sample returns false. -/
theorem is_mainly_cjk_spec :
    (is_mainly_cjk "" = false) ∧
    (∀ s : String, is_mainly_cjk s = true ↔
        (s ≠ "" ∧ 3 * (s.toList.take 500).length
            < 20 * ((s.toList.take 500).filter is_cjk_char).length)) ∧
    (∀ s t : String, s.toList.length = 500 →
        is_mainly_cjk (s ++ t) = is_mainly_cjk s) ∧
    (is_mainly_cjk "中aaaa" = true) ∧
    (is_mainly_cjk "中aaaaaaaaa" = false) := by
  refine ⟨rfl, ?_, ?_, by decide, by decide⟩
  · intro s
    unfold is_mainly_cjk
    by_cases hs : s = ""
    · simp [hs]
    · rw [if_neg hs]
      have hl : s.toList ≠ [] := by
        intro hnil
        exact hs (String.ext (by simpa [String.toList] using hnil))
      have hpos : 0 < (s.toList.take 500).length := by
        rw [List.length_take]
        have := List.length_pos.mpr hl
        omega
      constructor
      · intro h
        exact ⟨hs, (of_decide_eq_true h).2⟩
      · intro h
        exact decide_eq_true ⟨hpos, h.2⟩
  · intro s t hlen
    have hdata : (s ++ t).toList = s.toList ++ t.toList := by
      rcases s with ⟨a⟩
      rcases t with ⟨b⟩
      rfl
    have hs : s ≠ "" := by
      intro h
      rw [h] at hlen
      exact absurd hlen (by decide)
    have hst : s ++ t ≠ "" := by
      intro h
      have : (s ++ t).toList = [] := by rw [h]; rfl
      rw [hdata] at this
      have : s.toList = [] := by
        rcases List.append_eq_nil.mp this with ⟨h1, _⟩
        exact h1
      rw [this] at hlen
      simp at hlen
    have hsample : (s ++ t).toList.take 500 = s.toList.take 500 := by
      rw [hdata, List.take_append_eq_append_take, hlen]
      simp
    unfold is_mainly_cjk
    rw [if_neg hs, if_neg hst, hsample]

/-- Witness instantiating `is_mainly_cjk_spec`: appending text after a
500-character sample does not change the result. -/
theorem is_mainly_cjk_spec_check :
    is_mainly_cjk (String.mk (List.replicate 500 'a') ++ "中中中")
      = is_mainly_cjk (String.mk (List.replicate 500 'a')) :=
  is_mainly_cjk_spec.2.2.1 (String.mk (List.replicate 500 'a')) "中中中"
    (by show (List.replicate 500 'a').length = 500; rw [List.length_replicate])

/-- C9 counterexample: `is_mainly_cjk` is not total over dynamically typed
inputs — a truthy non-string input such as the integer 1 passes the
falsiness guard and then raises `TypeError` at the slicing `text[:500]`
(the function has no exception handler). -/
theorem is_mainly_cjk_raises_on_int :
    is_mainly_cjk_py (PyText.intVal 1) = Except.error () := rfl

/-- C9 (amended): `is_mainly_cjk` never raises and has no side effects for
any string input, and a falsy input (`None`, `0`, the empty string) is
treated as "not CJK"; but a truthy non-string input raises instead of
returning false. -/
theorem is_mainly_cjk_totality :
    (∀ s : String, is_mainly_cjk_py (PyText.str s) = Except.ok (is_mainly_cjk s)) ∧
    (is_mainly_cjk_py PyText.noneVal = Except.ok false) ∧
    (is_mainly_cjk_py (PyText.intVal 0) = Except.ok false) ∧
    (∀ n : Int, n ≠ 0 → is_mainly_cjk_py (PyText.intVal n) = Except.error ()) := by
  refine ⟨fun s => rfl, rfl, rfl, ?_⟩
  intro n hn
  simp [is_mainly_cjk_py, hn]

/-- Witness instantiating `is_mainly_cjk_totality` at a concrete non-zero
integer. -/
theorem is_mainly_cjk_totality_check :
    is_mainly_cjk_py (PyText.intVal 2) = Except.error () :=
  is_mainly_cjk_totality.2.2.2 2 (by decide)

/-- C10: Cue-text invariant.  Every cue emitted by the segmentation pass
has non-empty text with no leading or trailing whitespace (stripping it
again changes nothing); and when a break character arrives while the
clause buffer strips to empty, no cue is emitted, the cue counter does
not advance, and the buffered characters (including the break character)
are retained for the following clause. -/
theorem cue_text_invariant :
    (∀ (text : String) (ts : List (Int × Int)) (ml : Nat) (cue : Cue),
        cue ∈ segment_cues text ts ml →
        cue.text ≠ [] ∧ pyStrip cue.text = cue.text) ∧
    (∀ (ml : Nat) (ts : List (Int × Int)) (st : LoopState) (c : Char),
        should_flush ml (st.curr_text ++ [c]) c = true →
        pyStrip (st.curr_text ++ [c]) = [] →
        (stepChar ml ts st c).cues = st.cues ∧
        (stepChar ml ts st c).sentence_idx = st.sentence_idx ∧
        (stepChar ml ts st c).curr_text = st.curr_text ++ [c]) := by
  constructor
  · intro text ts ml cue hmem
    obtain ⟨pieces, tl, _, _, e3, e4⟩ := segment_pieces text ts ml
    have hmm : cue.text ∈ (segment_cues text ts ml).map Cue.text :=
      List.mem_map_of_mem Cue.text hmem
    rw [e3] at hmm
    obtain ⟨p, hp, hpe⟩ := List.mem_map.mp hmm
    constructor
    · rw [← hpe]
      exact e4 p hp
    · rw [← hpe, pyStrip_idem]
  · intro ml ts st c hf he
    obtain ⟨h1, h2, h3⟩ := stepChar_fields_of_noflush ts (fun h => h.2 he)
    exact ⟨h2, h3, h1⟩

/-- Witness instantiating `cue_text_invariant`: a concrete emitted cue is
stripped and non-empty, and a soft break on a whitespace-only buffer
emits nothing and keeps the buffer. -/
theorem cue_text_invariant_check :
    ((⟨1, 0, 0, ['h', 'i', '。']⟩ : Cue).text ≠ [] ∧
      pyStrip (⟨1, 0, 0, ['h', 'i', '。']⟩ : Cue).text
        = (⟨1, 0, 0, ['h', 'i', '。']⟩ : Cue).text) ∧
    ((stepChar 1 [] { initState with curr_text := [' '] } ' ').cues
        = ({ initState with curr_text := [' '] } : LoopState).cues ∧
      (stepChar 1 [] { initState with curr_text := [' '] } ' ').sentence_idx
        = ({ initState with curr_text := [' '] } : LoopState).sentence_idx ∧
      (stepChar 1 [] { initState with curr_text := [' '] } ' ').curr_text
        = ({ initState with curr_text := [' '] } : LoopState).curr_text ++ [' ']) :=
  ⟨cue_text_invariant.1 "hi。" [] 10 ⟨1, 0, 0, ['h', 'i', '。']⟩ (by decide),
   cue_text_invariant.2 1 [] { initState with curr_text := [' '] } ' '
     (by decide) (by decide)⟩

end SrtUtils
